import Mathlib

/-!
Shallow embedding of the cmsf trading system: the Polymarket orderbook
streaming layer (`helpers/orderbook_wss.py`), the paper-trading engine
(`run.py`), and the Monte-Carlo backtest steps
(`backtest_hft_monte_carlo.py`, `backtest_monte_carlo.py`).

Prices, sizes and times are modelled as rationals; Python dicts keyed by
strings become association lists with in-place update (`aset`) and
first-match lookup (`alookup`), which matches dict semantics whenever the
keys are unique (as they are for dicts).
-/

namespace Cmsf

/-- Python dict read `d.get(k)` on an association list. -/
def alookup {β : Type} (k : String) : List (String × β) → Option β
  | [] => none
  | (k', v) :: rest => if k' = k then some v else alookup k rest

/-- Python dict assignment `d[k] = v`: replaces the value in place when the
key is present, appends otherwise. -/
def aset {β : Type} (k : String) (v : β) : List (String × β) → List (String × β)
  | [] => [(k, v)]
  | (k', v') :: rest => if k' = k then (k, v) :: rest else (k', v') :: aset k v rest

/-! ## Orderbook data model (`helpers/orderbook_wss.py`) -/

/-- `OrderbookState`: orderbook snapshot for one side of a market. -/
structure OrderbookState where
  condition_id : String
  token_id : String
  side : String
  bids : List (ℚ × ℚ) := []
  asks : List (ℚ × ℚ) := []
  last_update : Option ℚ := none
deriving DecidableEq

def OrderbookState.best_bid (ob : OrderbookState) : Option ℚ :=
  ob.bids.head?.map Prod.fst

def OrderbookState.best_ask (ob : OrderbookState) : Option ℚ :=
  ob.asks.head?.map Prod.fst

/-- Python truthiness of an optional float: `None` and `0.0` are falsy. -/
def truthy : Option ℚ → Bool
  | none => false
  | some x => decide (x ≠ 0)

/-- Python `a or b` on optional floats. -/
def pyOr (a b : Option ℚ) : Option ℚ :=
  if truthy a then a else b

/-- `mid_price`: `(best_bid + best_ask) / 2` when both are truthy, else
`best_bid or best_ask` (Python truthiness, so a price of `0.0` is falsy). -/
def OrderbookState.mid_price (ob : OrderbookState) : Option ℚ :=
  if truthy ob.best_bid && truthy ob.best_ask then
    some ((ob.best_bid.getD 0 + ob.best_ask.getD 0) / 2)
  else
    pyOr ob.best_bid ob.best_ask

/-- `spread`: `best_ask - best_bid` when both are truthy, else `None`. -/
def OrderbookState.spread (ob : OrderbookState) : Option ℚ :=
  if truthy ob.best_bid && truthy ob.best_ask then
    some (ob.best_ask.getD 0 - ob.best_bid.getD 0)
  else
    none

/-! ## OrderbookStreamer (`helpers/orderbook_wss.py`) -/

/-- Mutable state of `OrderbookStreamer`: orderbooks keyed by
`condition_id ++ "_UP"` / `condition_id ++ "_DOWN"`, the subscription
records `(condition_id, token_id, side)`, the queue of token ids pending
subscription, and the force-reconnect flag. -/
structure OrderbookStreamer where
  orderbooks : List (String × OrderbookState) := []
  subscriptions : List (String × String × String) := []
  pending_subs : List String := []
  force_reconnect : Bool := false
deriving DecidableEq

/-- `OrderbookStreamer.subscribe`: appends subscription records and pending
tokens for tokens not already subscribed, then unconditionally installs two
fresh `OrderbookState` entries for the market. -/
def subscribe (s : OrderbookStreamer) (condition_id token_up token_down : String) :
    OrderbookStreamer :=
  let existing_tokens := s.subscriptions.map (fun x => x.2.1)
  let s1 :=
    if token_up ∈ existing_tokens then s else
      { s with subscriptions := s.subscriptions ++ [(condition_id, token_up, "UP")],
               pending_subs := s.pending_subs ++ [token_up] }
  let s2 :=
    if token_down ∈ existing_tokens then s1 else
      { s1 with subscriptions := s1.subscriptions ++ [(condition_id, token_down, "DOWN")],
                pending_subs := s1.pending_subs ++ [token_down] }
  let obUp : OrderbookState :=
    { condition_id := condition_id, token_id := token_up, side := "UP" }
  let obDown : OrderbookState :=
    { condition_id := condition_id, token_id := token_down, side := "DOWN" }
  let orderbooks' :=
    aset (condition_id ++ "_DOWN") obDown (aset (condition_id ++ "_UP") obUp s2.orderbooks)
  { s2 with orderbooks := orderbooks' }

/-- Python `k.rsplit(sep, 1)[0]` for `sep = underscore`: everything before the
last underscore, or the whole string when it has none. -/
def rsplitHead (s : String) : String :=
  let r := s.data.reverse
  if r.contains '_' then String.mk ((r.dropWhile (fun c => c ≠ '_')).tail.reverse) else s

/-- `OrderbookStreamer.clear_stale`: drops orderbooks and subscription records
whose market is not active, and raises the force-reconnect flag when anything
was removed.  The pending-subscription queue is not touched. -/
def clear_stale (s : OrderbookStreamer) (active_condition_ids : List String) :
    OrderbookStreamer :=
  let stale_keys := (s.orderbooks.filter
      (fun kv => decide (rsplitHead kv.1 ∉ active_condition_ids))).map Prod.fst
  let had_stale := decide (stale_keys.length > 0)
  let orderbooks' := s.orderbooks.filter
      (fun kv => decide (rsplitHead kv.1 ∈ active_condition_ids))
  let old_sub_count := s.subscriptions.length
  let subscriptions' := s.subscriptions.filter
      (fun x => decide (x.1 ∈ active_condition_ids))
  let force' := if had_stale || decide (subscriptions'.length < old_sub_count)
                then true else s.force_reconnect
  { s with orderbooks := orderbooks', subscriptions := subscriptions',
           force_reconnect := force' }

/-- A parsed inbound book message: `asset_id` plus the already-parsed
`(price, size)` levels from the `bids` / `asks` fields. -/
structure BookMessage where
  asset_id : String
  bids : List (ℚ × ℚ) := []
  asks : List (ℚ × ℚ) := []
deriving DecidableEq

/-- Python `sorted(key=price, reverse=True)`: stable descending sort. -/
def sortBids (l : List (ℚ × ℚ)) : List (ℚ × ℚ) :=
  l.insertionSort (fun x y => x.1 ≥ y.1)

/-- Python `sorted(key=price)`: stable ascending sort. -/
def sortAsks (l : List (ℚ × ℚ)) : List (ℚ × ℚ) :=
  l.insertionSort (fun x y => x.1 ≤ y.1)

/-- The loop body of `_handle_book_update`: the first orderbook whose
`token_id` matches gets the sorted, 10-truncated book and a new timestamp
(the Python loop breaks after the first match). -/
def handle_book_update_go (asset_id : String) (bids asks : List (ℚ × ℚ)) (now : ℚ) :
    List (String × OrderbookState) → List (String × OrderbookState)
  | [] => []
  | (k, ob) :: rest =>
    if ob.token_id = asset_id then
      (k, { ob with bids := (sortBids bids).take 10,
                    asks := (sortAsks asks).take 10,
                    last_update := some now }) :: rest
    else
      (k, ob) :: handle_book_update_go asset_id bids asks now rest

/-- `OrderbookStreamer._handle_book_update` (callbacks are external sinks and
carry no engine state). -/
def handle_book_update (s : OrderbookStreamer) (msg : BookMessage) (now : ℚ) :
    OrderbookStreamer :=
  { s with orderbooks := handle_book_update_go msg.asset_id msg.bids msg.asks now s.orderbooks }

/-- The token-id list `stream` assembles when (re)connecting: all tokens of
the subscription records followed by any pending tokens. -/
def connect_token_ids (s : OrderbookStreamer) : List String :=
  s.subscriptions.map (fun x => x.2.1) ++ s.pending_subs

/-! ## Trading engine (`run.py`) -/

/-- Direction of a strategy action. -/
inductive ActionDir
  | buy
  | sell
  | hold
deriving DecidableEq

/-- Modelled from the spec: the strategy collaborator's `Action` (the
`strategies` module is not among the sources); per §6 it carries a
direction (buy/sell/hold) and a size multiplier. -/
structure Action where
  dir : ActionDir
  size_multiplier : ℚ
deriving DecidableEq

def Action.is_buy (a : Action) : Bool := a.dir = ActionDir.buy

def Action.is_sell (a : Action) : Bool := a.dir = ActionDir.sell

def Action.is_hold (a : Action) : Bool := a.dir = ActionDir.hold

/-- The slice of the strategy module's `MarketState` that `execute_action`
and `close_all_positions` read (`asset`, `prob`, `time_remaining`); the full
class lives in the `strategies` module outside the sources. -/
structure MarketState where
  asset : String
  prob : ℚ := 0
  time_remaining : ℚ := 0
deriving DecidableEq

/-- `Position` dataclass from `run.py`. -/
structure Position where
  asset : String
  side : Option String := none
  size : ℚ := 0
  entry_price : ℚ := 0
  entry_time : Option ℚ := none
  entry_prob : ℚ := 0
  time_remaining_at_entry : ℚ := 0
deriving DecidableEq

/-- One trade event as distributed by `_record_trade` / `emit_trade`
(`pnl` and `price` are absent for entry events). -/
structure TradeRec where
  action : String
  asset : String
  size : ℚ
  pnl : Option ℚ := none
  price : Option ℚ := none
deriving DecidableEq

/-- `TradingEngine` state relevant to position handling and statistics. -/
structure TradingEngine where
  trade_size : ℚ := 10
  positions : List (String × Position) := []
  states : List (String × MarketState) := []
  pending_rewards : List (String × ℚ) := []
  total_pnl : ℚ := 0
  trade_count : Nat := 0
  win_count : Nat := 0
  trades : List TradeRec := []
deriving DecidableEq

/-- Entry execution-cost factor (`FEE = 1.01` in `execute_action`). -/
def FEE : ℚ := 101 / 100

/-- Exit execution-cost factor (`EXIT_FEE = 0.99`). -/
def EXIT_FEE : ℚ := 99 / 100

/-- `TradingEngine._record_trade`: accumulate P&L and counters and emit the
trade event (the `pos.size` recorded is the size before it is zeroed). -/
def record_trade (e : TradingEngine) (pos : Position) (price pnl : ℚ) (action : String) :
    TradingEngine :=
  { e with total_pnl := e.total_pnl + pnl,
           trade_count := e.trade_count + 1,
           win_count := if pnl > 0 then e.win_count + 1 else e.win_count,
           trades := e.trades ++
             [{ action := action, asset := pos.asset, size := pos.size,
                pnl := some pnl, price := some price }] }

/-- `TradingEngine.execute_action`: `now` is the wall-clock time of the call
in seconds (`datetime.now`), read once for the holding-duration test and the
entry timestamp.  `entry_time` is only ever read on positions with
`size > 0`, which the engine always stamps at entry. -/
def execute_action (e : TradingEngine) (cid : String) (action : Action)
    (state : MarketState) (now : ℚ) : TradingEngine :=
  if action.is_hold then e else
  match alookup cid e.positions with
  | none => e
  | some pos =>
    let price := state.prob
    let trade_amount := e.trade_size * action.size_multiplier
    if pos.size > 0 then
      let hold_duration := now - pos.entry_time.getD 0
      if hold_duration < 30 then e
      else if (action.is_sell ∧ pos.side = some "UP") ∨
              (action.is_buy ∧ pos.side = some "DOWN") then
        let shares := pos.size / pos.entry_price
        let effective_exit_price :=
          if pos.side = some "UP" then price * EXIT_FEE else (1 - price) * EXIT_FEE
        let pnl := (effective_exit_price - pos.entry_price) * shares
        let e1 := record_trade e pos effective_exit_price pnl
          ("CLOSE " ++ pos.side.getD "")
        { e1 with pending_rewards := aset cid pnl e1.pending_rewards,
                  positions := aset cid { pos with size := 0, side := none } e1.positions }
      else e
    else if pos.size = 0 then
      let size_label :=
        if action.size_multiplier = 1 / 4 then "SM"
        else if action.size_multiplier = 1 / 2 then "MD"
        else if action.size_multiplier = 1 then "LG"
        else "MD"
      let pos1 :=
        if action.is_buy then
          { pos with side := some "UP", entry_price := price * FEE }
        else if action.is_sell then
          { pos with side := some "DOWN", entry_price := (1 - price) * FEE }
        else pos
      let pos2 := { pos1 with size := trade_amount,
                              entry_time := some now,
                              entry_prob := price,
                              time_remaining_at_entry := state.time_remaining }
      { e with positions := aset cid pos2 e.positions,
               trades := e.trades ++
                 [{ action := (if action.is_buy then "BUY_" else "SELL_") ++ size_label,
                    asset := pos.asset, size := pos2.size }] }
    else e

/-- One iteration of the `close_all_positions` loop for a single position:
returns the updated position and, when a forced close happened, the
effective exit price and P&L. -/
def close_one (states : List (String × MarketState)) (cid : String) (pos : Position) :
    Position × Option (ℚ × ℚ) :=
  if pos.size > 0 then
    match alookup cid states with
    | some state =>
      let price := state.prob
      let shares := pos.size / pos.entry_price
      let eff_exit :=
        if pos.side = some "UP" then price * EXIT_FEE else (1 - price) * EXIT_FEE
      let pnl := (eff_exit - pos.entry_price) * shares
      ({ pos with size := 0, side := none }, some (eff_exit, pnl))
    | none => (pos, none)
  else (pos, none)

/-- The `close_all_positions` loop over the positions dict: threads the
engine statistics while rebuilding the position list in place. -/
def close_all_go (states : List (String × MarketState)) (e : TradingEngine) :
    List (String × Position) → TradingEngine × List (String × Position)
  | [] => (e, [])
  | (cid, pos) :: rest =>
    match close_one states cid pos with
    | (pos', some effPnl) =>
      let e1 := record_trade e pos effPnl.1 effPnl.2 ("FORCE CLOSE " ++ pos.side.getD "")
      let next := close_all_go states e1 rest
      (next.1, (cid, pos') :: next.2)
    | (pos', none) =>
      let next := close_all_go states e rest
      (next.1, (cid, pos') :: next.2)

/-- `TradingEngine.close_all_positions`. -/
def close_all_positions (e : TradingEngine) : TradingEngine :=
  let r := close_all_go e.states e e.positions
  { r.1 with positions := r.2 }

/-- Derived from the spec's wording: realized P&L of a close,
`(exit_price − entry_price) × (size / entry_price)` with the exit price being
the position's own-side probability times the exit-fee factor.  Used to
compare the engine's recorded P&L against the spec formula. -/
def spec_close_pnl (state : MarketState) (pos : Position) : ℚ :=
  ((if pos.side = some "UP" then state.prob else 1 - state.prob) * EXIT_FEE
      - pos.entry_price) * (pos.size / pos.entry_price)

/-- The P&L values `close_all_positions` realizes, one per open position
whose market still has a `MarketState`. -/
def close_pnls (states : List (String × MarketState)) :
    List (String × Position) → List ℚ :=
  List.filterMap (fun cp =>
    if cp.2.size > 0 then (alookup cp.1 states).map (fun st => spec_close_pnl st cp.2)
    else none)

/-- The trade events `close_all_positions` emits, one per open position whose
market still has a `MarketState`. -/
def close_trades (states : List (String × MarketState)) :
    List (String × Position) → List TradeRec :=
  List.filterMap (fun cp =>
    if cp.2.size > 0 then
      (alookup cp.1 states).map (fun st =>
        { action := "FORCE CLOSE " ++ cp.2.side.getD "",
          asset := cp.2.asset, size := cp.2.size,
          pnl := some (spec_close_pnl st cp.2),
          price := some ((if cp.2.side = some "UP" then st.prob else 1 - st.prob) * EXIT_FEE) })
    else none)

/-- The per-position invariant of the spec: `size > 0 ⇔ side ≠ NONE` for
every position of the engine. -/
def posInv (e : TradingEngine) : Prop :=
  ∀ cid pos, alookup cid e.positions = some pos → (pos.size > 0 ↔ pos.side ≠ none)

/-! ## Backtest steps (`backtest_hft_monte_carlo.py`, `backtest_monte_carlo.py`) -/

/-- A backtest position (`backtest_hft_monte_carlo.py` dict
`{entry_p, entry_t, side}`). -/
structure BtPosition where
  entry_p : ℚ
  entry_t : ℚ
  side : String
deriving DecidableEq

/-- Loop body of `HFTBacktester.run_simulation` for one tick: threads the
optional position and the running balance.  Constants: `SLIPPAGE = 0.01`,
`TRADE_SIZE = 500`, `FIXED_PENALTY = 0.15`; the close levels are
`0.495` / `0.505`. -/
def hft_step (cooldown_sec threshold : ℚ) (penalty_mode : Bool)
    (st : Option BtPosition × ℚ) (mid_price current_time : ℚ) :
    Option BtPosition × ℚ :=
  let signal_strength := |mid_price - 1 / 2|
  match st.1 with
  | none =>
    if signal_strength > threshold - 1 / 2 then
      let side := if mid_price > 1 / 2 then "UP" else "DOWN"
      let entry_price := (if side = "UP" then mid_price else 1 - mid_price) * (1 + 1 / 100)
      (some { entry_p := entry_price, entry_t := current_time, side := side }, st.2)
    else (none, st.2)
  | some p =>
    let duration := current_time - p.entry_t
    if duration ≥ cooldown_sec then
      let should_close := (p.side = "UP" ∧ mid_price < 99 / 200) ∨
                          (p.side = "DOWN" ∧ mid_price > 101 / 200)
      if should_close then
        let exit_p_raw := if p.side = "UP" then mid_price else 1 - mid_price
        let exit_price := exit_p_raw * (1 - 1 / 100)
        let shares := 500 / p.entry_p
        let trade_pnl := (exit_price - p.entry_p) * shares
        let trade_pnl' := if penalty_mode then
            (if trade_pnl > 0 then trade_pnl - 3 / 20 else trade_pnl * (3 / 2) - 3 / 20)
          else trade_pnl
        (none, st.2 + trade_pnl')
      else (some p, st.2)
    else (some p, st.2)

/-- Loop body of `RealDataBacktester.run_scenario` for one tick: the time is
the tick index, the cooldown counts ticks, the close levels are
`0.49` / `0.51`; otherwise identical in structure to `hft_step`. -/
def real_step (cooldown : ℚ) (threshold : ℚ) (penalty_mode : Bool)
    (st : Option BtPosition × ℚ) (mid_price t : ℚ) :
    Option BtPosition × ℚ :=
  let signal_strength := |mid_price - 1 / 2|
  match st.1 with
  | none =>
    if signal_strength > threshold - 1 / 2 then
      let side := if mid_price > 1 / 2 then "UP" else "DOWN"
      let actual_prob := if side = "UP" then mid_price else 1 - mid_price
      (some { entry_p := actual_prob * (1 + 1 / 100), entry_t := t, side := side }, st.2)
    else (none, st.2)
  | some p =>
    if t - p.entry_t ≥ cooldown then
      let should_close := (p.side = "UP" ∧ mid_price < 49 / 100) ∨
                          (p.side = "DOWN" ∧ mid_price > 51 / 100)
      if should_close then
        let exit_p_raw := if p.side = "UP" then mid_price else 1 - mid_price
        let exit_p := exit_p_raw * (1 - 1 / 100)
        let shares := 500 / p.entry_p
        let trade_pnl := (exit_p - p.entry_p) * shares
        let trade_pnl' := if penalty_mode then
            (if trade_pnl > 0 then trade_pnl - 3 / 20 else trade_pnl * (3 / 2) - 3 / 20)
          else trade_pnl
        (none, st.2 + trade_pnl')
      else (some p, st.2)
    else (some p, st.2)

instance : IsTotal (ℚ × ℚ) (fun x y => x.1 ≥ y.1) :=
  ⟨fun a b => le_total b.1 a.1⟩

instance : IsTrans (ℚ × ℚ) (fun x y => x.1 ≥ y.1) :=
  ⟨fun _ _ _ h1 h2 => le_trans h2 h1⟩

instance : IsTotal (ℚ × ℚ) (fun x y => x.1 ≤ y.1) :=
  ⟨fun a b => le_total a.1 b.1⟩

instance : IsTrans (ℚ × ℚ) (fun x y => x.1 ≤ y.1) :=
  ⟨fun _ _ _ h1 h2 => le_trans h1 h2⟩

/-! ## Helper lemmas -/

theorem alookup_aset_self {β : Type} (k : String) (v : β) (l : List (String × β)) :
    alookup k (aset k v l) = some v := by
  induction l with
  | nil => simp [alookup, aset]
  | cons hd tl ih =>
    by_cases h : hd.1 = k
    · simp [alookup, aset, h]
    · simp [alookup, aset, h, ih]

theorem alookup_aset_ne {β : Type} {k k' : String} (h : k' ≠ k) (v : β)
    (l : List (String × β)) : alookup k' (aset k v l) = alookup k' l := by
  have h' : ¬ (k = k') := fun hh => h hh.symm
  induction l with
  | nil => simp [alookup, aset, h']
  | cons hd tl ih =>
    obtain ⟨k0, v0⟩ := hd
    by_cases hk : k0 = k
    · subst hk
      simp [alookup, aset, h']
    · simp [alookup, aset, hk, ih]

theorem alookup_mem {β : Type} {k : String} {v : β} :
    ∀ {l : List (String × β)}, alookup k l = some v → (k, v) ∈ l := by
  intro l
  induction l with
  | nil => intro h; simp [alookup] at h
  | cons hd tl ih =>
    intro h
    obtain ⟨k0, v0⟩ := hd
    by_cases hk : k0 = k
    · subst hk
      simp [alookup] at h
      subst h
      exact List.mem_cons_self _ _
    · simp [alookup, hk] at h
      exact List.mem_cons_of_mem _ (ih h)

theorem alookup_map_keyed {β γ : Type} (f : String → β → γ) (k : String) :
    ∀ l : List (String × β),
      alookup k (l.map (fun cp => (cp.1, f cp.1 cp.2))) = (alookup k l).map (f k) := by
  intro l
  induction l with
  | nil => simp [alookup]
  | cons hd tl ih =>
    by_cases hk : hd.1 = k
    · simp [alookup, hk]
    · simp [alookup, hk, ih]

theorem mem_aset {β : Type} (k : String) (v : β) :
    ∀ (l : List (String × β)) (cp : String × β), cp ∈ aset k v l → cp ∈ l ∨ cp = (k, v) := by
  intro l
  induction l with
  | nil => intro cp hcp; right; simpa [aset] using hcp
  | cons hd tl ih =>
    intro cp hcp
    obtain ⟨k0, v0⟩ := hd
    by_cases hk : k0 = k
    · subst hk
      simp [aset] at hcp
      rcases hcp with h1 | h1
      · right; simp [h1]
      · left; exact List.mem_cons_of_mem _ h1
    · simp [aset, hk] at hcp
      rcases hcp with h1 | h1
      · left; simp [h1]
      · rcases ih cp h1 with h2 | h2
        · left; exact List.mem_cons_of_mem _ h2
        · right; exact h2

theorem keys_aset_nodup {β : Type} (k : String) (v : β) :
    ∀ l : List (String × β), (l.map Prod.fst).Nodup → ((aset k v l).map Prod.fst).Nodup := by
  intro l
  induction l with
  | nil => intro _; simp [aset]
  | cons hd tl ih =>
    intro h
    obtain ⟨k0, v0⟩ := hd
    simp only [List.map_cons, List.nodup_cons] at h
    by_cases hk : k0 = k
    · subst hk
      simp only [aset, if_pos rfl]
      simpa using h
    · have hmem : k0 ∉ (aset k v tl).map Prod.fst := by
        intro hmem
        rcases List.mem_map.mp hmem with ⟨cp, hcp, hfst⟩
        rcases mem_aset k v tl cp hcp with hin | heq
        · exact h.1 (hfst ▸ List.mem_map_of_mem Prod.fst hin)
        · apply hk
          rw [heq] at hfst
          exact hfst.symm
      simp only [aset, if_neg hk, List.map_cons, List.nodup_cons]
      exact ⟨hmem, ih h.2⟩

theorem length_filter_lt_iff {α : Type} (p : α → Bool) (l : List α) :
    (l.filter p).length < l.length ↔ ∃ x ∈ l, ¬ p x = true := by
  induction l with
  | nil => simp
  | cons hd tl ih =>
    cases hp : p hd
    · rw [List.filter_cons, if_neg (by simp [hp])]
      constructor
      · intro _
        exact ⟨hd, List.mem_cons_self hd tl, by simp [hp]⟩
      · intro _
        exact Nat.lt_succ_of_le (List.length_filter_le p tl)
    · rw [List.filter_cons, if_pos (by simp [hp])]
      have hlen : (hd :: List.filter p tl).length < (hd :: tl).length ↔
          (List.filter p tl).length < tl.length := by
        simp only [List.length_cons]
        omega
      rw [hlen, ih]
      constructor
      · rintro ⟨x, hx, hpx⟩
        exact ⟨x, List.mem_cons_of_mem _ hx, hpx⟩
      · rintro ⟨x, hx, hpx⟩
        rcases List.mem_cons.mp hx with heq | hmem
        · rw [heq, hp] at hpx
          exact absurd rfl hpx
        · exact ⟨x, hmem, hpx⟩

@[simp] theorem sell_ne_hold : (ActionDir.sell = ActionDir.hold) = False := by simp

@[simp] theorem buy_ne_hold : (ActionDir.buy = ActionDir.hold) = False := by simp

@[simp] theorem sell_ne_buy : (ActionDir.sell = ActionDir.buy) = False := by simp

@[simp] theorem buy_ne_sell : (ActionDir.buy = ActionDir.sell) = False := by simp

@[simp] theorem buy_eq_buy : (ActionDir.buy = ActionDir.buy) = True := by simp

@[simp] theorem sell_eq_sell : (ActionDir.sell = ActionDir.sell) = True := by simp

/-! ## Claim theorems -/

/-- Claim C1 (counterexample): with a best bid at price `0` and a best ask at
`1/2`, `mid_price` is `1/2` (Python truthiness treats the zero bid as
absent), not the claimed average `1/4`, even though both a bid and an ask
level exist. -/
theorem C1_counterexample :
    let ob : OrderbookState :=
      { condition_id := "m", token_id := "a", side := "UP",
        bids := [(0, 1)], asks := [(1/2, 1)] }
    ob.best_bid = some 0 ∧ ob.best_ask = some (1/2) ∧
      ob.mid_price = some (1/2) ∧ ob.mid_price ≠ some ((0 + 1/2) / 2) := by
  refine ⟨rfl, rfl, ?_, ?_⟩ <;>
    norm_num [OrderbookState.mid_price, OrderbookState.best_bid,
      OrderbookState.best_ask, truthy, pyOr]

/-- Claim C1 (amended): `mid_price` is the average of best bid and best ask
when both exist and are nonzero; when the best bid exists and is nonzero but
the best ask is absent or zero, it is the best bid; when the best bid is
absent or zero, it is whatever `best_ask` is (possibly `None` or `0`). -/
theorem C1_amended (ob : OrderbookState) :
    (∀ b a, ob.best_bid = some b → ob.best_ask = some a → b ≠ 0 → a ≠ 0 →
        ob.mid_price = some ((b + a) / 2)) ∧
    (∀ b, ob.best_bid = some b → b ≠ 0 →
        (ob.best_ask = none ∨ ob.best_ask = some 0) → ob.mid_price = some b) ∧
    ((ob.best_bid = none ∨ ob.best_bid = some 0) → ob.mid_price = ob.best_ask) := by
  refine ⟨?_, ?_, ?_⟩
  · intro b a hb ha hb0 ha0
    simp [OrderbookState.mid_price, truthy, hb, ha, hb0, ha0]
  · intro b hb hb0 hask
    rcases hask with h | h <;> simp [OrderbookState.mid_price, pyOr, truthy, hb, h, hb0]
  · intro hbid
    rcases hbid with h | h <;> simp [OrderbookState.mid_price, pyOr, truthy, h]

/-- Claim C1 (witness): the amended statement evaluated on a book with best
bid `1/4` and best ask `1/2`. -/
theorem C1_witness :
    OrderbookState.mid_price
      { condition_id := "m", token_id := "a", side := "UP",
        bids := [(1/4, 1)], asks := [(1/2, 1)] } = some ((1/4 + 1/2) / 2) :=
  (C1_amended _).1 (1/4) (1/2) rfl rfl (by norm_num) (by norm_num)

/-- Claim C10: while a position is open and fewer than 30 seconds have
elapsed since its entry time, `execute_action` returns the engine unchanged,
whatever the action. -/
theorem C10_min_holding (e : TradingEngine) (cid : String) (a : Action)
    (st : MarketState) (now : ℚ) (pos : Position)
    (h1 : alookup cid e.positions = some pos) (h2 : pos.size > 0)
    (h3 : now - pos.entry_time.getD 0 < 30) :
    execute_action e cid a st now = e := by
  unfold execute_action
  by_cases hh : a.is_hold
  · simp [hh]
  · simp [hh, h1, h2, h3]

/-- Claim C10 (witness): a sell action 10 seconds after entry leaves a
concrete engine unchanged. -/
theorem C10_witness :
    execute_action
      { trade_size := 10,
        positions := [("m", { asset := "BTC", side := some "UP", size := 10,
                              entry_price := 1/2, entry_time := some 0 })],
        states := [] }
      "m" { dir := ActionDir.sell, size_multiplier := 1 }
      { asset := "BTC", prob := 1/2 } 10 =
      { trade_size := 10,
        positions := [("m", { asset := "BTC", side := some "UP", size := 10,
                              entry_price := 1/2, entry_time := some 0 })],
        states := [] } :=
  C10_min_holding _ _ _ _ _
    { asset := "BTC", side := some "UP", size := 10,
      entry_price := 1/2, entry_time := some 0 }
    rfl (by norm_num) (by norm_num [Option.getD])

/-- Claim C2 (counterexample): no cooldown exists after an exit.  A position
entered at time 0 is sold (closed) at time 40, and a buy at the very same
time 40 — zero seconds after the exit — reopens the position, so a flat
market re-enters inside any fixed positive post-exit window. -/
theorem C2_counterexample :
    let pos0 : Position := { asset := "BTC", side := some "UP", size := 10,
                             entry_price := 1/2, entry_time := some 0 }
    let st0 : MarketState := { asset := "BTC", prob := 1/2, time_remaining := 1/2 }
    let e0 : TradingEngine := { trade_size := 10, positions := [("m", pos0)],
                                states := [("m", st0)] }
    let e1 := execute_action e0 "m" { dir := ActionDir.sell, size_multiplier := 1 } st0 40
    let e2 := execute_action e1 "m" { dir := ActionDir.buy, size_multiplier := 1 } st0 40
    (alookup "m" e1.positions).map Position.size = some 0 ∧
      (alookup "m" e2.positions).map Position.size = some 10 ∧
      (alookup "m" e2.positions).map Position.entry_time = some (some 40) := by
  refine ⟨?_, ?_, ?_⟩ <;>
    norm_num [execute_action, alookup, aset, record_trade, Action.is_hold,
      Action.is_sell, Action.is_buy, FEE, EXIT_FEE, Option.getD]

/-- Claim C2 (amended): the engine imposes no post-exit cooldown at all.
Whenever the market's position is flat, a non-hold action opens a position
immediately; `execute_action` keeps no record of past exits and its entry
branch depends on no time quantity, so entry is permitted at any time after
an exit.  The only temporal restriction in the engine is the 30-second
minimum holding period before an exit. -/
theorem C2_amended (e : TradingEngine) (cid : String) (a : Action) (st : MarketState)
    (now : ℚ) (pos : Position)
    (h1 : alookup cid e.positions = some pos) (h2 : pos.size = 0)
    (h3 : a.dir ≠ ActionDir.hold) :
    alookup cid (execute_action e cid a st now).positions =
      some { pos with
              side := some (if a.dir = ActionDir.buy then "UP" else "DOWN"),
              entry_price := (if a.dir = ActionDir.buy then st.prob else 1 - st.prob) * FEE,
              size := e.trade_size * a.size_multiplier,
              entry_time := some now,
              entry_prob := st.prob,
              time_remaining_at_entry := st.time_remaining } := by
  have hnotpos : ¬ pos.size > 0 := by rw [h2]; norm_num
  cases hd : a.dir with
  | hold => exact absurd hd h3
  | buy =>
    simp only [execute_action, Action.is_hold, Action.is_buy, Action.is_sell, hd,
      h1, hnotpos, h2]
    norm_num [alookup_aset_self]
  | sell =>
    simp only [execute_action, Action.is_hold, Action.is_buy, Action.is_sell, hd,
      h1, hnotpos, h2]
    norm_num [alookup_aset_self]

/-- Claim C2 (witness): a buy on a flat market opens immediately on a
concrete engine. -/
theorem C2_witness :
    alookup "m" (execute_action
      { trade_size := 10, positions := [("m", { asset := "BTC" })], states := [] }
      "m" { dir := ActionDir.buy, size_multiplier := 1 }
      { asset := "BTC", prob := 1/2, time_remaining := 1/2 } 40).positions =
      some { asset := "BTC",
             side := some (if ActionDir.buy = ActionDir.buy then "UP" else "DOWN"),
             entry_price := (if ActionDir.buy = ActionDir.buy then (1:ℚ)/2 else 1 - 1/2) * FEE,
             size := (10:ℚ) * 1,
             entry_time := some 40,
             entry_prob := 1/2,
             time_remaining_at_entry := 1/2 } :=
  C2_amended _ _ _ _ _ { asset := "BTC" } rfl rfl (by simp)

theorem close_all_go_snd (states : List (String × MarketState)) :
    ∀ (e : TradingEngine) (ps : List (String × Position)),
      (close_all_go states e ps).2 =
        ps.map (fun cp => (cp.1, (close_one states cp.1 cp.2).1)) := by
  intro e ps
  induction ps generalizing e with
  | nil => simp [close_all_go]
  | cons hd tl ih =>
    obtain ⟨cid, pos⟩ := hd
    rcases hc : close_one states cid pos with ⟨pos', eff?⟩
    cases eff? <;> simp [close_all_go, hc, ih]

theorem close_all_go_fst (states : List (String × MarketState)) :
    ∀ (e : TradingEngine) (ps : List (String × Position)),
      (close_all_go states e ps).1 =
        { e with
            total_pnl := e.total_pnl + (close_pnls states ps).sum,
            trade_count := e.trade_count + (close_pnls states ps).length,
            win_count := e.win_count +
              ((close_pnls states ps).filter (fun q => decide (q > 0))).length,
            trades := e.trades ++ close_trades states ps } := by
  intro e ps
  induction ps generalizing e with
  | nil => simp [close_all_go, close_pnls, close_trades]
  | cons hd tl ih =>
    obtain ⟨cid, pos⟩ := hd
    by_cases hsz : pos.size > 0
    · rcases hst : alookup cid states with _ | st
      · have hc : close_one states cid pos = (pos, none) := by
          simp [close_one, hsz, hst]
        simp only [close_all_go, hc]
        rw [ih]
        simp [close_pnls, close_trades, hsz, hst]
      · have hc : close_one states cid pos =
            ({ pos with size := 0, side := none },
             some ((if pos.side = some "UP" then st.prob else 1 - st.prob) * EXIT_FEE,
                   spec_close_pnl st pos)) := by
          simp [close_one, hsz, hst, spec_close_pnl]
        simp only [close_all_go, hc]
        rw [ih]
        by_cases hp : spec_close_pnl st pos > 0 <;>
          simp [close_pnls, close_trades, hsz, hst, record_trade, hp,
            List.filter_cons, add_assoc, List.sum_cons] <;>
          omega

    · have hc : close_one states cid pos = (pos, none) := by
        simp [close_one, hsz]
      simp only [close_all_go, hc]
      rw [ih]
      simp [close_pnls, close_trades, hsz]

theorem close_all_positions_positions (e : TradingEngine) :
    (close_all_positions e).positions =
      e.positions.map (fun cp => (cp.1, (close_one e.states cp.1 cp.2).1)) := by
  simp [close_all_positions, close_all_go_snd]

theorem close_all_positions_total_pnl (e : TradingEngine) :
    (close_all_positions e).total_pnl =
      e.total_pnl + (close_pnls e.states e.positions).sum := by
  simp [close_all_positions, close_all_go_fst]

theorem close_all_positions_trades (e : TradingEngine) :
    (close_all_positions e).trades = e.trades ++ close_trades e.states e.positions := by
  simp [close_all_positions, close_all_go_fst]

theorem length_close_trades (states : List (String × MarketState)) :
    ∀ ps : List (String × Position),
      (close_trades states ps).length =
        ps.countP (fun cp => decide (cp.2.size > 0) && (alookup cp.1 states).isSome) := by
  intro ps
  induction ps with
  | nil => simp [close_trades]
  | cons hd tl ih =>
    by_cases hsz : hd.2.size > 0
    · rcases hst : alookup hd.1 states with _ | st <;>
        simp [close_trades, List.countP_cons, hsz, hst, ← ih, close_trades]
    · simp [close_trades, List.countP_cons, hsz, ← ih, close_trades]

/-- Claim C3: on every close — the sell/buy exit path of `execute_action`
and every position closed by `close_all_positions` — the realized P&L equals
`(exit_price − entry_price) × (size / entry_price)` with
`exit_price = own-side price × 0.99`, and `total_pnl` grows by exactly the
realized amounts (`spec_close_pnl` is the spec formula, `close_pnls` /
`close_trades` list that formula's value for each closable position). -/
theorem C3_realized_pnl (e : TradingEngine) (cid : String) (a : Action)
    (st : MarketState) (now : ℚ) (pos : Position)
    (h1 : alookup cid e.positions = some pos) (h2 : pos.size > 0)
    (h3 : ¬ now - pos.entry_time.getD 0 < 30)
    (h4 : (a.is_sell = true ∧ pos.side = some "UP") ∨
          (a.is_buy = true ∧ pos.side = some "DOWN")) :
    ((execute_action e cid a st now).total_pnl = e.total_pnl + spec_close_pnl st pos ∧
     (execute_action e cid a st now).trades = e.trades ++
       [{ action := "CLOSE " ++ pos.side.getD "", asset := pos.asset, size := pos.size,
          pnl := some (spec_close_pnl st pos),
          price := some ((if pos.side = some "UP" then st.prob else 1 - st.prob)
            * EXIT_FEE) }]) ∧
    (∀ e' : TradingEngine,
      (close_all_positions e').total_pnl =
        e'.total_pnl + (close_pnls e'.states e'.positions).sum ∧
      (close_all_positions e').trades =
        e'.trades ++ close_trades e'.states e'.positions) := by
  have hh : a.is_hold = false := by
    rcases h4 with ⟨hs, _⟩ | ⟨hb, _⟩
    · simp [Action.is_sell] at hs
      simp [Action.is_hold, hs]
    · simp [Action.is_buy] at hb
      simp [Action.is_hold, hb]
  constructor
  · constructor <;>
      simp [execute_action, hh, h1, h2, h3, h4, record_trade, spec_close_pnl]
  · intro e'
    exact ⟨close_all_positions_total_pnl e', close_all_positions_trades e'⟩

/-- Claim C3 (witness): closing a 10-notional UP position entered at price
`1/2` against a market probability of `1/2` adds
`(1/2 · 0.99 − 1/2) · (10 / (1/2)) = −1/10` to `total_pnl`. -/
theorem C3_witness :
    (execute_action
      { trade_size := 10,
        positions := [("m", { asset := "BTC", side := some "UP", size := 10,
                              entry_price := 1/2, entry_time := some 0 })],
        states := [] }
      "m" { dir := ActionDir.sell, size_multiplier := 1 }
      { asset := "BTC", prob := 1/2, time_remaining := 1/2 } 40).total_pnl =
      (0 : ℚ) + spec_close_pnl
        { asset := "BTC", prob := 1/2, time_remaining := 1/2 }
        { asset := "BTC", side := some "UP", size := 10,
          entry_price := 1/2, entry_time := some 0 } :=
  (C3_realized_pnl
    { trade_size := 10,
      positions := [("m", { asset := "BTC", side := some "UP", size := 10,
                            entry_price := 1/2, entry_time := some 0 })],
      states := [] }
    "m" { dir := ActionDir.sell, size_multiplier := 1 }
    { asset := "BTC", prob := 1/2, time_remaining := 1/2 } 40
    { asset := "BTC", side := some "UP", size := 10,
      entry_price := 1/2, entry_time := some 0 }
    rfl (by norm_num) (by norm_num [Option.getD]) (Or.inl ⟨rfl, rfl⟩)).1.1

/-- Claim C6 (counterexample): a position still open at shutdown whose
market has no `MarketState` entry is NOT force-closed: `close_all_positions`
records no trade and leaves its size at 10, contradicting the claim that
every open position is closed for every engine state. -/
theorem C6_counterexample :
    let e0 : TradingEngine :=
      { trade_size := 10,
        positions := [("m", { asset := "BTC", side := some "UP", size := 10,
                              entry_price := 1/2, entry_time := some 0 })],
        states := [] }
    (close_all_positions e0).trades = [] ∧
      (alookup "m" (close_all_positions e0).positions).map Position.size = some 10 ∧
      (close_all_positions e0).total_pnl = 0 := by
  refine ⟨?_, ?_, ?_⟩ <;>
    norm_num [close_all_positions, close_all_go, close_one, close_trades,
      alookup, record_trade]

/-- Claim C6 (amended): at shutdown `close_all_positions` force-closes
exactly the open positions whose market still has a `MarketState`: each such
position gets exactly one forced-close trade (at its own-side probability
times the 0.99 exit factor) and reverts to size 0 with no side; flat
positions produce no trade and are unchanged; an open position whose
`MarketState` is missing is skipped entirely — no trade, still open. -/
theorem C6_amended (e : TradingEngine) :
    (∀ cid pos st, alookup cid e.positions = some pos → pos.size > 0 →
        alookup cid e.states = some st →
        alookup cid (close_all_positions e).positions =
          some { pos with size := 0, side := none }) ∧
    (∀ cid pos, alookup cid e.positions = some pos → ¬ pos.size > 0 →
        alookup cid (close_all_positions e).positions = some pos) ∧
    (∀ cid pos, alookup cid e.positions = some pos → alookup cid e.states = none →
        alookup cid (close_all_positions e).positions = some pos) ∧
    (close_all_positions e).trades.length =
      e.trades.length + e.positions.countP
        (fun cp => decide (cp.2.size > 0) && (alookup cp.1 e.states).isSome) := by
  refine ⟨?_, ?_, ?_, ?_⟩
  · intro cid pos st h1 h2 h3
    rw [close_all_positions_positions,
      alookup_map_keyed (fun c p => (close_one e.states c p).1), h1]
    simp [close_one, h2, h3]
  · intro cid pos h1 h2
    rw [close_all_positions_positions,
      alookup_map_keyed (fun c p => (close_one e.states c p).1), h1]
    simp [close_one, h2]
  · intro cid pos h1 h2
    rw [close_all_positions_positions,
      alookup_map_keyed (fun c p => (close_one e.states c p).1), h1]
    by_cases h3 : pos.size > 0 <;> simp [close_one, h2, h3]
  · rw [close_all_positions_trades, List.length_append, length_close_trades]

/-- Claim C6 (witness): with the market state present, the open position is
force-closed to size 0. -/
theorem C6_witness :
    alookup "m" (close_all_positions
      { trade_size := 10,
        positions := [("m", { asset := "BTC", side := some "UP", size := 10,
                              entry_price := 1/2, entry_time := some 0 })],
        states := [("m", { asset := "BTC", prob := 1/2, time_remaining := 1/2 })] }).positions
      = some { asset := "BTC", side := none, size := 0,
               entry_price := 1/2, entry_time := some 0 } :=
  (C6_amended
    { trade_size := 10,
      positions := [("m", { asset := "BTC", side := some "UP", size := 10,
                            entry_price := 1/2, entry_time := some 0 })],
      states := [("m", { asset := "BTC", prob := 1/2, time_remaining := 1/2 })] }).1
    "m"
    { asset := "BTC", side := some "UP", size := 10,
      entry_price := 1/2, entry_time := some 0 }
    { asset := "BTC", prob := 1/2, time_remaining := 1/2 }
    rfl (by norm_num) rfl

theorem close_all_posInv (e : TradingEngine) (hinv : posInv e) :
    posInv (close_all_positions e) := by
  intro cid pos h
  rw [close_all_positions_positions,
    alookup_map_keyed (fun c p => (close_one e.states c p).1)] at h
  rcases hlk : alookup cid e.positions with _ | pos0
  · rw [hlk] at h
    simp at h
  · rw [hlk] at h
    simp only [Option.map_some'] at h
    obtain rfl := Option.some.inj h
    by_cases hsz : pos0.size > 0
    · rcases hst : alookup cid e.states with _ | st
      · simpa [close_one, hsz, hst] using hinv cid pos0 hlk
      · simp [close_one, hsz, hst]
    · simpa [close_one, hsz] using hinv cid pos0 hlk

theorem execute_action_positions (e : TradingEngine) (cid : String) (a : Action)
    (st : MarketState) (now : ℚ) :
    (execute_action e cid a st now).positions = e.positions ∨
    (∃ pos, alookup cid e.positions = some pos ∧ pos.size > 0 ∧
       (execute_action e cid a st now).positions =
         aset cid { pos with size := 0, side := none } e.positions) ∨
    (∃ pos, alookup cid e.positions = some pos ∧ pos.size = 0 ∧
       a.dir ≠ ActionDir.hold ∧
       (execute_action e cid a st now).positions =
         aset cid { pos with
            side := some (if a.dir = ActionDir.buy then "UP" else "DOWN"),
            entry_price := (if a.dir = ActionDir.buy then st.prob else 1 - st.prob) * FEE,
            size := e.trade_size * a.size_multiplier,
            entry_time := some now, entry_prob := st.prob,
            time_remaining_at_entry := st.time_remaining } e.positions) := by
  by_cases hh : a.is_hold = true
  · left
    simp [execute_action, hh]
  · have hd : a.dir ≠ ActionDir.hold := by
      intro hcon
      exact hh (by simp [Action.is_hold, hcon])
    rcases hlk : alookup cid e.positions with _ | pos
    · left
      simp [execute_action, hh, hlk]
    · by_cases hsz : pos.size > 0
      · by_cases hdur : now - pos.entry_time.getD 0 < 30
        · left
          simp [execute_action, hh, hlk, hsz, hdur]
        · by_cases hcl : (a.is_sell = true ∧ pos.side = some "UP") ∨
              (a.is_buy = true ∧ pos.side = some "DOWN")
          · right; left
            refine ⟨pos, rfl, hsz, ?_⟩
            simp [execute_action, hh, hlk, hsz, hdur, hcl, record_trade]
          · left
            have hne : ¬ pos.size = 0 := by
              intro hcon
              rw [hcon] at hsz
              exact absurd hsz (by norm_num)
            simp [execute_action, hh, hlk, hsz, hdur, hcl, hne]
      · by_cases hz : pos.size = 0
        · right; right
          refine ⟨pos, rfl, hz, hd, ?_⟩
          cases hdd : a.dir with
          | hold => exact absurd hdd hd
          | buy =>
            simp [execute_action, Action.is_hold, Action.is_buy, Action.is_sell,
              hdd, hlk, hsz, hz]
          | sell =>
            simp [execute_action, Action.is_hold, Action.is_buy, Action.is_sell,
              hdd, hlk, hsz, hz]
        · left
          simp [execute_action, hh, hlk, hsz, hz]

/-- Claim C9 (counterexample): a buy action whose size multiplier is 0 on a
flat market sets `side = "UP"` while leaving `size = 0`, so after
`execute_action` the invariant `size > 0 ⇔ side ≠ NONE` fails. -/
theorem C9_counterexample :
    let e0 : TradingEngine :=
      { trade_size := 10, positions := [("m", { asset := "BTC" })], states := [] }
    let e1 := execute_action e0 "m" { dir := ActionDir.buy, size_multiplier := 0 }
                { asset := "BTC", prob := 1/2, time_remaining := 1/2 } 5
    (alookup "m" e1.positions).map (fun p => (p.size, p.side)) =
        some ((0 : ℚ), some "UP") ∧
      ¬ posInv e1 := by
  have hlk : alookup "m" (execute_action
      { trade_size := 10, positions := [("m", { asset := "BTC" })], states := [] }
      "m" { dir := ActionDir.buy, size_multiplier := 0 }
      { asset := "BTC", prob := 1/2, time_remaining := 1/2 } 5).positions =
      some { asset := "BTC", side := some "UP", size := 0, entry_price := 101/200,
             entry_time := some 5, entry_prob := 1/2,
             time_remaining_at_entry := 1/2 } := by
    norm_num [execute_action, alookup, aset, Action.is_hold, Action.is_buy,
      Action.is_sell, FEE]
  constructor
  · rw [hlk]
    rfl
  · intro hinv
    have h := hinv "m" _ hlk
    simp at h

/-- Claim C9 (amended): provided every action that enters has a positive
trade amount (`trade_size × size_multiplier > 0`), `execute_action` and
`close_all_positions` preserve the invariant `size > 0 ⇔ side ≠ NONE`; a
market with an open position never takes the entry branch (its position is
either untouched or closed to flat); and the keyed position map stays
duplicate-free, so there is at most one position per market.  With a zero
size multiplier the entry branch breaks the invariant (see the
counterexample). -/
theorem C9_invariants (e : TradingEngine) (cid : String) (a : Action)
    (st : MarketState) (now : ℚ) (hinv : posInv e)
    (hamt : 0 < e.trade_size * a.size_multiplier) :
    posInv (execute_action e cid a st now) ∧
    posInv (close_all_positions e) ∧
    (∀ pos, alookup cid e.positions = some pos → pos.size > 0 →
        alookup cid (execute_action e cid a st now).positions = some pos ∨
        alookup cid (execute_action e cid a st now).positions =
          some { pos with size := 0, side := none }) ∧
    ((e.positions.map Prod.fst).Nodup →
        ((execute_action e cid a st now).positions.map Prod.fst).Nodup) := by
  rcases execute_action_positions e cid a st now with hcase | hcase | hcase
  · refine ⟨?_, close_all_posInv e hinv, ?_, ?_⟩
    · intro cid' pos' h'
      rw [hcase] at h'
      exact hinv cid' pos' h'
    · intro pos h1 _
      left
      rw [hcase, h1]
    · intro hnd
      rw [hcase]
      exact hnd
  · obtain ⟨pos0, hlk0, hsz0, heq⟩ := hcase
    refine ⟨?_, close_all_posInv e hinv, ?_, ?_⟩
    · intro cid' pos' h'
      rw [heq] at h'
      by_cases hc : cid' = cid
      · subst hc
        rw [alookup_aset_self] at h'
        obtain rfl := Option.some.inj h'
        simp
      · rw [alookup_aset_ne hc] at h'
        exact hinv cid' pos' h'
    · intro pos h1 _
      right
      rw [h1] at hlk0
      obtain rfl := Option.some.inj hlk0
      rw [heq, alookup_aset_self]
    · intro hnd
      rw [heq]
      exact keys_aset_nodup _ _ _ hnd
  · obtain ⟨pos0, hlk0, hz0, hd0, heq⟩ := hcase
    refine ⟨?_, close_all_posInv e hinv, ?_, ?_⟩
    · intro cid' pos' h'
      rw [heq] at h'
      by_cases hc : cid' = cid
      · subst hc
        rw [alookup_aset_self] at h'
        obtain rfl := Option.some.inj h'
        simp [hamt]
      · rw [alookup_aset_ne hc] at h'
        exact hinv cid' pos' h'
    · intro pos h1 hsz
      rw [h1] at hlk0
      obtain rfl := Option.some.inj hlk0
      rw [hz0] at hsz
      exact absurd hsz (by norm_num)
    · intro hnd
      rw [heq]
      exact keys_aset_nodup _ _ _ hnd

/-- Claim C9 (witness): the invariants hold after a buy with multiplier 1 on
a concrete flat engine. -/
theorem C9_witness :
    posInv (execute_action
      { trade_size := 10, positions := [("m", { asset := "BTC" })], states := [] }
      "m" { dir := ActionDir.buy, size_multiplier := 1 }
      { asset := "BTC", prob := 1/2, time_remaining := 1/2 } 5) :=
  (C9_invariants
    { trade_size := 10, positions := [("m", { asset := "BTC" })], states := [] }
    "m" { dir := ActionDir.buy, size_multiplier := 1 }
    { asset := "BTC", prob := 1/2, time_remaining := 1/2 } 5
    (by
      intro cid pos h
      by_cases hc : ("m" : String) = cid
      · subst hc
        simp [alookup] at h
        subst h
        simp
      · simp [alookup, hc] at h)
    (by norm_num)).1

theorem append_ne_of_ne {a b : String} (s : String) (h : a ≠ b) : s ++ a ≠ s ++ b := by
  intro hc
  apply h
  have hd : (s ++ a).data = (s ++ b).data := by rw [hc]
  rw [String.data_append, String.data_append] at hd
  exact String.ext (List.append_cancel_left hd)

/-- Claim C4 (counterexample): `subscribe` is not a no-op for
already-subscribed tokens.  After a book update has filled the UP-side
orderbook, re-subscribing the same market and tokens replaces it with a
fresh empty `OrderbookState`: its bids are cleared and its `last_update` is
reset to `None`. -/
theorem C4_counterexample :
    let s0 := subscribe {} "m" "a" "b"
    let s1 := handle_book_update s0 { asset_id := "a", bids := [(1/2, 1)], asks := [(3/5, 2)] } 7
    let s2 := subscribe s1 "m" "a" "b"
    (alookup "m_UP" s1.orderbooks).map OrderbookState.bids = some [(1/2, 1)] ∧
      (alookup "m_UP" s1.orderbooks).map OrderbookState.last_update = some (some 7) ∧
      (alookup "m_UP" s2.orderbooks).map OrderbookState.bids = some [] ∧
      (alookup "m_UP" s2.orderbooks).map OrderbookState.last_update = some none := by
  have hkU : ("m" ++ "_UP" : String) = "m_UP" := rfl
  have hkD : ("m" ++ "_DOWN" : String) = "m_DOWN" := rfl
  refine ⟨?_, ?_, ?_, ?_⟩ <;>
    norm_num [subscribe, handle_book_update, handle_book_update_go, aset, alookup,
      sortBids, sortAsks, List.insertionSort, List.orderedInsert, hkU, hkD]

/-- Claim C4 (amended): when both tokens are already subscribed, a repeated
`subscribe` adds no subscription record, no pending token, and no new
orderbook key (so records stay unique), and leaves every other market's
orderbooks untouched — but it is not a no-op: it overwrites the two
`OrderbookState` entries of that market with fresh empty ones. -/
theorem C4_resubscribe (s : OrderbookStreamer) (cid a b : String)
    (ha : a ∈ s.subscriptions.map (fun x => x.2.1))
    (hb : b ∈ s.subscriptions.map (fun x => x.2.1)) :
    (subscribe s cid a b).subscriptions = s.subscriptions ∧
    (subscribe s cid a b).pending_subs = s.pending_subs ∧
    (subscribe s cid a b).force_reconnect = s.force_reconnect ∧
    alookup (cid ++ "_UP") (subscribe s cid a b).orderbooks =
      some { condition_id := cid, token_id := a, side := "UP" } ∧
    alookup (cid ++ "_DOWN") (subscribe s cid a b).orderbooks =
      some { condition_id := cid, token_id := b, side := "DOWN" } ∧
    (∀ k, k ≠ cid ++ "_UP" → k ≠ cid ++ "_DOWN" →
      alookup k (subscribe s cid a b).orderbooks = alookup k s.orderbooks) ∧
    ((s.orderbooks.map Prod.fst).Nodup →
      ((subscribe s cid a b).orderbooks.map Prod.fst).Nodup) := by
  have hud : cid ++ "_UP" ≠ cid ++ "_DOWN" :=
    append_ne_of_ne cid (by decide)
  refine ⟨?_, ?_, ?_, ?_, ?_, ?_, ?_⟩
  · simp [subscribe, ha, hb]
  · simp [subscribe, ha, hb]
  · simp [subscribe, ha, hb]
  · simp only [subscribe, ha, hb, if_pos]
    rw [alookup_aset_ne hud, alookup_aset_self]
  · simp only [subscribe, ha, hb, if_pos]
    rw [alookup_aset_self]
  · intro k hk1 hk2
    simp only [subscribe, ha, hb, if_pos]
    rw [alookup_aset_ne hk2, alookup_aset_ne hk1]
  · intro hnd
    simp only [subscribe, ha, hb, if_pos]
    exact keys_aset_nodup _ _ _ (keys_aset_nodup _ _ _ hnd)

/-- Claim C4 (witness): re-subscribing a concrete streamer adds no
subscription records. -/
theorem C4_witness :
    (subscribe
      { orderbooks := [("m_UP", { condition_id := "m", token_id := "a", side := "UP" }),
                       ("m_DOWN", { condition_id := "m", token_id := "b", side := "DOWN" })],
        subscriptions := [("m", "a", "UP"), ("m", "b", "DOWN")],
        pending_subs := ["a", "b"] }
      "m" "a" "b").subscriptions = [("m", "a", "UP"), ("m", "b", "DOWN")] :=
  (C4_resubscribe
    { orderbooks := [("m_UP", { condition_id := "m", token_id := "a", side := "UP" }),
                     ("m_DOWN", { condition_id := "m", token_id := "b", side := "DOWN" })],
      subscriptions := [("m", "a", "UP"), ("m", "b", "DOWN")],
      pending_subs := ["a", "b"] }
    "m" "a" "b" (by simp) (by simp)).1

/-- Claim C5 (counterexample): a book message with two bid levels at the
same price keeps both after sorting, so the stored bids are not strictly
descending — sorting uses a non-strict order and duplicates survive. -/
theorem C5_counterexample :
    let s0 : OrderbookStreamer :=
      { orderbooks := [("m_UP", { condition_id := "m", token_id := "a", side := "UP" })],
        subscriptions := [("m", "a", "UP")] }
    let s1 := handle_book_update s0
      { asset_id := "a", bids := [(1/2, 1), (1/2, 2)], asks := [] } 7
    (alookup "m_UP" s1.orderbooks).map OrderbookState.bids =
        some [(1/2, 1), (1/2, 2)] ∧
      ¬ List.Pairwise (fun x y : ℚ × ℚ => x.1 > y.1) [((1:ℚ)/2, (1:ℚ)), (1/2, 2)] := by
  constructor
  · norm_num [handle_book_update, handle_book_update_go, alookup, sortBids, sortAsks,
      List.insertionSort, List.orderedInsert]
  · intro hp
    rcases List.pairwise_cons.mp hp with ⟨hrel, _⟩
    have := hrel (1/2, 2) (List.mem_singleton.mpr rfl)
    norm_num at this

/-- Claim C5 (amended): after `_handle_book_update` every orderbook entry
either is unchanged from before or carries a book whose bids are sorted in
non-strictly descending price order and asks in non-strictly ascending
order, each with at most 10 levels.  Strictness fails when the inbound
message repeats a price level (see the counterexample). -/
theorem C5_book_invariant (obs : List (String × OrderbookState)) (asset_id : String)
    (bids asks : List (ℚ × ℚ)) (now : ℚ) (k : String) (ob' : OrderbookState)
    (hmem : (k, ob') ∈ handle_book_update_go asset_id bids asks now obs) :
    (k, ob') ∈ obs ∨
      (List.Sorted (fun x y : ℚ × ℚ => x.1 ≥ y.1) ob'.bids ∧ ob'.bids.length ≤ 10 ∧
       List.Sorted (fun x y : ℚ × ℚ => x.1 ≤ y.1) ob'.asks ∧ ob'.asks.length ≤ 10) := by
  induction obs with
  | nil => simp [handle_book_update_go] at hmem
  | cons hd tl ih =>
    obtain ⟨k0, ob0⟩ := hd
    by_cases htok : ob0.token_id = asset_id
    · rw [handle_book_update_go, if_pos htok] at hmem
      rcases List.mem_cons.mp hmem with heq | hin
      · right
        injection heq with hk hob
        subst hob
        refine ⟨?_, ?_, ?_, ?_⟩
        · exact (List.sorted_insertionSort _ bids).sublist (List.take_sublist 10 _)
        · exact List.length_take_le 10 _
        · exact (List.sorted_insertionSort _ asks).sublist (List.take_sublist 10 _)
        · exact List.length_take_le 10 _
      · left
        exact List.mem_cons_of_mem _ hin
    · rw [handle_book_update_go, if_neg htok] at hmem
      rcases List.mem_cons.mp hmem with heq | hin
      · left
        rw [heq]
        exact List.mem_cons_self _ _
      · rcases ih hin with hold | hnew
        · left
          exact List.mem_cons_of_mem _ hold
        · right
          exact hnew

/-- Claim C5 (witness): the book invariant evaluated after a concrete
update with three unsorted bid levels. -/
theorem C5_witness :
    List.Sorted (fun x y : ℚ × ℚ => x.1 ≥ y.1)
        (OrderbookState.bids
          { condition_id := "m", token_id := "a", side := "UP",
            bids := (sortBids [(1/4, 5), (3/5, 1), (1/2, 2)]).take 10,
            asks := (sortAsks []).take 10, last_update := some 7 }) ∧
      (OrderbookState.bids
          { condition_id := "m", token_id := "a", side := "UP",
            bids := (sortBids [(1/4, 5), (3/5, 1), (1/2, 2)]).take 10,
            asks := (sortAsks []).take 10, last_update := some 7 }).length ≤ 10 ∧
      List.Sorted (fun x y : ℚ × ℚ => x.1 ≤ y.1)
        (OrderbookState.asks
          { condition_id := "m", token_id := "a", side := "UP",
            bids := (sortBids [(1/4, 5), (3/5, 1), (1/2, 2)]).take 10,
            asks := (sortAsks []).take 10, last_update := some 7 }) ∧
      (OrderbookState.asks
          { condition_id := "m", token_id := "a", side := "UP",
            bids := (sortBids [(1/4, 5), (3/5, 1), (1/2, 2)]).take 10,
            asks := (sortAsks []).take 10, last_update := some 7 }).length ≤ 10 :=
  Or.resolve_left
    (C5_book_invariant
      [("m_UP", { condition_id := "m", token_id := "a", side := "UP" })]
      "a" [(1/4, 5), (3/5, 1), (1/2, 2)] [] 7 "m_UP"
      { condition_id := "m", token_id := "a", side := "UP",
        bids := (sortBids [(1/4, 5), (3/5, 1), (1/2, 2)]).take 10,
        asks := (sortAsks []).take 10, last_update := some 7 }
      (by simp [handle_book_update_go]))
    (by simp)

/-- Claim C7 (counterexample): the token list assembled for the next
connection is not restricted to active markets.  Subscribing market `m`
(tokens queued as pending) and then clearing it as stale leaves the pending
queue untouched, so the next connection would subscribe tokens `a`, `b`
although no market is active. -/
theorem C7_counterexample :
    let s1 := clear_stale (subscribe {} "m" "a" "b") []
    connect_token_ids s1 = ["a", "b"] ∧ s1.subscriptions = [] ∧
      s1.orderbooks = [] ∧ s1.force_reconnect = true := by
  refine ⟨?_, ?_, ?_, ?_⟩ <;>
    simp [subscribe, clear_stale, connect_token_ids, aset]

/-- Claim C7 (amended): starting from a lowered flag, `clear_stale` keeps
exactly the orderbooks and subscription records of active markets, raises
the force-reconnect flag iff at least one orderbook or subscription was
removed (once per batch), and every token id remaining in the subscription
records belongs to an active market — but the pending-subscription queue is
not filtered and may still hold tokens of removed markets (see the
counterexample). -/
theorem C7_clear_stale (s : OrderbookStreamer) (active : List String)
    (hf : s.force_reconnect = false) :
    (∀ kv, kv ∈ (clear_stale s active).orderbooks ↔
        kv ∈ s.orderbooks ∧ rsplitHead kv.1 ∈ active) ∧
    (∀ sub, sub ∈ (clear_stale s active).subscriptions ↔
        sub ∈ s.subscriptions ∧ sub.1 ∈ active) ∧
    ((clear_stale s active).force_reconnect = true ↔
        (∃ kv ∈ s.orderbooks, rsplitHead kv.1 ∉ active) ∨
        (∃ sub ∈ s.subscriptions, sub.1 ∉ active)) ∧
    (∀ tok ∈ (clear_stale s active).subscriptions.map (fun x => x.2.1),
        ∃ cid side, (cid, tok, side) ∈ (clear_stale s active).subscriptions ∧
          cid ∈ active) ∧
    (clear_stale s active).pending_subs = s.pending_subs := by
  have hsubs : ∀ sub, sub ∈ (clear_stale s active).subscriptions ↔
      sub ∈ s.subscriptions ∧ sub.1 ∈ active := by
    intro sub
    simp [clear_stale, List.mem_filter]
  refine ⟨?_, hsubs, ?_, ?_, ?_⟩
  · intro kv
    simp [clear_stale, List.mem_filter]
  · have hsub : ((s.subscriptions.filter
        (fun x => decide (x.1 ∈ active))).length < s.subscriptions.length ↔
        ∃ sub ∈ s.subscriptions, sub.1 ∉ active) := by
      rw [length_filter_lt_iff]
      simp
    have hob : (0 < ((s.orderbooks.filter
        (fun kv => decide (rsplitHead kv.1 ∉ active))).map Prod.fst).length ↔
        ∃ kv ∈ s.orderbooks, rsplitHead kv.1 ∉ active) := by
      rw [List.length_map, List.length_pos_iff_exists_mem]
      constructor
      · rintro ⟨kv, hkv⟩
        have := List.mem_filter.mp hkv
        exact ⟨kv, this.1, by simpa using this.2⟩
      · rintro ⟨kv, h1, h2⟩
        exact ⟨kv, List.mem_filter.mpr ⟨h1, by simpa using h2⟩⟩
    simp only [clear_stale, hf]
    rw [← hsub, ← hob]
    by_cases h1 : 0 < ((s.orderbooks.filter
        (fun kv => decide (rsplitHead kv.1 ∉ active))).map Prod.fst).length <;>
      by_cases h2 : (s.subscriptions.filter
          (fun x => decide (x.1 ∈ active))).length < s.subscriptions.length <;>
        simp [h1, h2]
  · intro tok htok
    rcases List.mem_map.mp htok with ⟨sub, hsub, htk⟩
    obtain ⟨c, t, sd⟩ := sub
    have ht : t = tok := htk
    subst ht
    exact ⟨c, sd, hsub, ((hsubs _).mp hsub).2⟩
  · rfl

/-- Claim C7 (witness): the removal characterization evaluated on a concrete
streamer with one active and one stale market. -/
theorem C7_witness :
    ("n", "c", "UP") ∈ (clear_stale
      { orderbooks := [],
        subscriptions := [("m", "a", "UP"), ("n", "c", "UP")],
        pending_subs := [], force_reconnect := false } ["n"]).subscriptions ↔
      ("n", "c", "UP") ∈ [("m", "a", "UP"), ("n", "c", "UP")] ∧
        ("n", "c", "UP").1 ∈ ["n"] :=
  (C7_clear_stale
    { orderbooks := [],
      subscriptions := [("m", "a", "UP"), ("n", "c", "UP")],
      pending_subs := [], force_reconnect := false } ["n"] rfl).2.1 ("n", "c", "UP")

/-- Claim C8 (counterexample): with threshold `0.55` and mid-price `0.6`
(above the upper threshold), both backtest steps open the "UP" side — the
side the price is moving toward — not the claimed contrarian "low" (DOWN)
side. -/
theorem C8_counterexample :
    ((hft_step 0 (11/20) false (none, 0) (3/5) 0).1.map BtPosition.side = some "UP" ∧
     (real_step 0 (11/20) false (none, 0) (3/5) 0).1.map BtPosition.side = some "UP") ∧
    (some "UP" : Option String) ≠ some "DOWN" := by
  have habs : |(1:ℚ)/10| = 1/10 := abs_of_nonneg (by norm_num)
  refine ⟨⟨?_, ?_⟩, by simp⟩ <;> norm_num [hft_step, real_step, habs]

/-- Claim C8 (amended): the entry rule of both backtest scripts is
momentum, not mean-reversion: with a symmetric threshold at least 1/2, a
flat market opens the "UP" (high) side when the mid-price exceeds the upper
threshold, opens the "DOWN" (low) side when it is below the symmetric lower
threshold `1 − threshold`, and stays flat in between.  Both scripts
implement the identical rule. -/
theorem C8_entry_rule (cooldown threshold : ℚ) (penalty : Bool) (balance : ℚ)
    (mid t : ℚ) (hthr : 1/2 ≤ threshold) :
    (mid > threshold →
        (hft_step cooldown threshold penalty (none, balance) mid t).1.map
            BtPosition.side = some "UP" ∧
        (real_step cooldown threshold penalty (none, balance) mid t).1.map
            BtPosition.side = some "UP") ∧
    (mid < 1 - threshold →
        (hft_step cooldown threshold penalty (none, balance) mid t).1.map
            BtPosition.side = some "DOWN" ∧
        (real_step cooldown threshold penalty (none, balance) mid t).1.map
            BtPosition.side = some "DOWN") ∧
    (1 - threshold ≤ mid → mid ≤ threshold →
        (hft_step cooldown threshold penalty (none, balance) mid t).1 = none ∧
        (real_step cooldown threshold penalty (none, balance) mid t).1 = none) := by
  refine ⟨?_, ?_, ?_⟩
  · intro hup
    have h1 : |mid - 1/2| > threshold - 1/2 := by
      rw [abs_of_nonneg (by linarith)]
      linarith
    have h2 : mid > 1/2 := by linarith
    constructor
    all_goals
      simp only [hft_step, real_step]
      rw [if_pos h1]
      simp
      linarith
  · intro hdown
    have h1 : |mid - 1/2| > threshold - 1/2 := by
      rw [abs_of_neg (by linarith)]
      linarith
    have h2 : ¬ mid > 1/2 := by
      intro hc
      linarith
    constructor
    all_goals
      simp only [hft_step, real_step]
      rw [if_pos h1]
      simp
      linarith
  · intro hlo hhi
    have h1 : ¬ |mid - 1/2| > threshold - 1/2 := by
      rw [not_lt, abs_le]
      constructor <;> linarith
    constructor
    all_goals
      simp only [hft_step, real_step]
      rw [if_neg h1]

/-- Claim C8 (witness): with threshold `0.55`, a mid-price of `0.4` (below
the lower threshold `0.45`) opens "DOWN" in both scripts. -/
theorem C8_witness :
    (hft_step 0 (11/20) false (none, 0) (2/5) 0).1.map BtPosition.side = some "DOWN" ∧
    (real_step 0 (11/20) false (none, 0) (2/5) 0).1.map BtPosition.side = some "DOWN" :=
  (C8_entry_rule 0 (11/20) false 0 (2/5) 0 (by norm_num)).2.1 (by norm_num)

end Cmsf
